import Mathlib

/-!
Verification of the data-ingestion / normalization / aggregation pipeline of the
EMS crash-injury dashboard (src/app.py).

The program manipulates pandas DataFrames.  We embed a DataFrame shallowly as a
list of named columns; a column carries its dtype and its list of cells.  Cells
are either missing (NaN / pd.NA), an integer, or a string — the only cell kinds
the pipeline produces or inspects.  Numeric intermediate results of
pd.to_numeric are modelled as Option Dec (none = NaN, Dec an exact decimal), so that the integrality
check performed by .astype with the nullable Int64 dtype is faithful.
CSV headers are unique (pandas' read_csv mangles duplicate header names), so
column names are assumed distinct; column update is modelled as rewriting every
column of the given name, which coincides with the single-column update on such
tables.
-/

/-- A cell of a table: missing (NaN / pd.NA), an integer, or a string. -/
inductive Cell
  | na : Cell
  | int : Int → Cell
  | str : String → Cell
deriving DecidableEq

/-- The dtypes the pipeline distinguishes: object (text), nullable Int64,
float64, and Categorical with its category list and orderedness flag. -/
inductive Dtype
  | object : Dtype
  | int64 : Dtype
  | float64 : Dtype
  | categorical : List String → Bool → Dtype
deriving DecidableEq

/-- A named column of a DataFrame. -/
structure Col where
  name : String
  dtype : Dtype
  cells : List Cell
deriving DecidableEq

/-- A DataFrame: an ordered list of named columns. -/
abbrev Table : Type := List Col

instance {ε α : Type} [DecidableEq ε] [DecidableEq α] : DecidableEq (Except ε α) := fun a b =>
  match a, b with
  | Except.ok x, Except.ok y =>
    if h : x = y then isTrue (by rw [h]) else isFalse (by intro hc; cases hc; exact h rfl)
  | Except.error x, Except.error y =>
    if h : x = y then isTrue (by rw [h]) else isFalse (by intro hc; cases hc; exact h rfl)
  | Except.ok _, Except.error _ => isFalse (by intro hc; cases hc)
  | Except.error _, Except.ok _ => isFalse (by intro hc; cases hc)

/-- Is the cell missing?  Models pandas isna on a cell. -/
def isNa : Cell → Bool
  | Cell.na => true
  | _ => false

/-- Column membership test: models `name in df.columns`. -/
def hasCol : Table → String → Bool
  | [], _ => false
  | c :: t, n => c.name == n || hasCol t n

/-- The column of the given name, if present: models `df[n]` as a lookup. -/
def findCol : Table → String → Option Col
  | [], _ => none
  | c :: t, n => if c.name == n then some c else findCol t n

/-- The cells of the column of the given name (empty list if absent). -/
def getCells (df : Table) (n : String) : List Cell :=
  match findCol df n with
  | some c => c.cells
  | none => []

/-- Models the column assignment `df[n] = series`: every column named n gets
the new dtype and cells (on unique headers this is the single-column update). -/
def setCol : Table → String → Dtype → List Cell → Table
  | [], _, _, _ => []
  | c :: t, n, d, vs =>
    (if c.name == n then { c with dtype := d, cells := vs } else c)
      :: setCol t n d vs

/-- Number of rows: models `len(df)` (the length of the columns; 0 when there
are no columns). -/
def nrows (df : Table) : Nat :=
  match df with
  | [] => 0
  | c :: _ => c.cells.length

/-- A well-formed (rectangular) table: every column has `nrows df` cells. -/
def Rect (df : Table) : Prop :=
  ∀ c ∈ df, c.cells.length = nrows df

instance (df : Table) : Decidable (Rect df) := by
  unfold Rect; infer_instance

/-! ### Numeric parsing: pd.to_numeric and .astype('Int64')  -/

/-- The natural number denoted by a list of decimal digit characters. -/
def natOfDigits (cs : List Char) : Nat :=
  cs.foldl (fun n c => 10 * n + (c.toNat - 48)) 0

/-- Split a character list at the first dot: the part before it and, when a dot
occurs, the part after it. -/
def splitDot : List Char → List Char × Option (List Char)
  | [] => ([], none)
  | c :: t =>
    if c = '.' then ([], some t)
    else
      let r := splitDot t
      (c :: r.1, r.2)

/-- An exact decimal number, denoting mant / 10 ^ exp.  Models the numeric
values pd.to_numeric produces from the decimal numerals the pipeline meets. -/
structure Dec where
  mant : Int
  exp : Nat
deriving DecidableEq

/-- Parse a decimal numeral (optional sign, optional fractional part) to an
exact decimal.  Models the numeral parsing performed by pd.to_numeric on the
string cells the pipeline meets; a non-numeral yields none. -/
def parseNumeral (s : String) : Option Dec :=
  let cs := s.toList
  let sgn : Int := match cs with
    | '-' :: _ => -1
    | _ => 1
  let body : List Char := match cs with
    | '-' :: t => t
    | '+' :: t => t
    | _ => cs
  let p := splitDot body
  let ip := p.1
  match p.2 with
  | none =>
    if ip.all Char.isDigit ∧ ip ≠ [] then
      some ⟨sgn * (natOfDigits ip : Int), 0⟩
    else none
  | some fp =>
    if ip.all Char.isDigit ∧ fp.all Char.isDigit ∧ (ip ≠ [] ∨ fp ≠ []) then
      some ⟨sgn * ((natOfDigits ip : Int) * (10 : Int) ^ fp.length
        + (natOfDigits fp : Int)), fp.length⟩
    else none

/-- The numeric value of one cell under pd.to_numeric with errors set to
coerce: NaN stays NaN, an integer is itself, a string is parsed (unparseable
strings become NaN). -/
def toNumCell : Cell → Option Dec
  | Cell.na => none
  | Cell.int n => some ⟨n, 0⟩
  | Cell.str s => parseNumeral s

/-- Models `pd.to_numeric(series, errors='coerce')` on a column's cells. -/
def to_numeric (cells : List Cell) : List (Option Dec) :=
  cells.map toNumCell

/-- Is the optional decimal integral (NaN counts as castable)? -/
def isIntegralD : Option Dec → Bool
  | none => true
  | some d => d.mant % (10 : Int) ^ d.exp == 0

/-- Models `.astype('Int64')` on a float result: pandas only casts when every
non-NaN value is integral, and otherwise raises
"cannot safely cast non-equivalent float64 to int64". -/
def astypeInt64 (xs : List (Option Dec)) : Except String (List Cell) :=
  if xs.all isIntegralD then
    Except.ok (xs.map (fun o => match o with
      | none => Cell.na
      | some d => Cell.int (d.mant / (10 : Int) ^ d.exp)))
  else Except.error "cannot safely cast non-equivalent float64 to int64"

/-! ### postprocess (src/app.py lines 17-24) -/

/-- The fixed ordered AgeGroup domain (src/app.py line 22). -/
def order : List String :=
  ["0-24", "25-34", "35-44", "45-54", "55-64", "65-74", "75-84", "85+"]

/-- The action of `pd.Categorical(values, categories=order, ordered=True)` on
one cell: a string inside the domain is kept, anything else becomes missing. -/
def ageCat : Cell → Cell
  | Cell.str s => if order.contains s then Cell.str s else Cell.na
  | _ => Cell.na

/-- First half of postprocess (src/app.py lines 19-20):
`df['Year'] = pd.to_numeric(df['Year'], errors='coerce').astype('Int64')`
when a Year column exists.  The astype step can raise, hence Except. -/
def postprocessYear (df : Table) : Except String Table :=
  if hasCol df "Year" then
    match astypeInt64 (to_numeric (getCells df "Year")) with
    | Except.ok ys => Except.ok (setCol df "Year" Dtype.int64 ys)
    | Except.error e => Except.error e
  else Except.ok df

/-- Second half of postprocess (src/app.py lines 21-23):
`df['AgeGroup'] = pd.Categorical(df['AgeGroup'], categories=order, ordered=True)`
when an AgeGroup column exists. -/
def postprocessAge (df : Table) : Table :=
  if hasCol df "AgeGroup" then
    setCol df "AgeGroup" (Dtype.categorical order true)
      ((getCells df "AgeGroup").map ageCat)
  else df

/-- postprocess (src/app.py lines 17-24): Year coercion then AgeGroup
labelling; the returned table. -/
def postprocess (df : Table) : Except String Table :=
  match postprocessYear df with
  | Except.ok d => Except.ok (postprocessAge d)
  | Except.error e => Except.error e

example : postprocess [⟨"Year", Dtype.object, [Cell.str "2020", Cell.str "abc"]⟩]
    = Except.ok [⟨"Year", Dtype.int64, [Cell.int 2020, Cell.na]⟩] := by decide

/-- In the source, postprocess assigns the coerced columns into its argument
(`df['Year'] = ...`, `df['AgeGroup'] = ...`) and returns that same object, so
after the call the caller's table is the post-processed table.  This definition
is the caller's view of its own table once `postprocess(df)` has run. -/
def callerAfterPostprocess (df : Table) : Except String Table :=
  postprocess df

/-! ### normalize_and_replace_nulls (src/app.py lines 109-125) -/

/-- ASCII lower-casing of one character: models Python str.lower on the ASCII
text the pipeline meets. -/
def lowerChar (c : Char) : Char :=
  if 'A' ≤ c ∧ c ≤ 'Z' then Char.ofNat (c.toNat + 32) else c

/-- The whitespace characters stripped by Python str.strip. -/
def isSpaceChar (c : Char) : Bool :=
  c == ' ' || c == '\t' || c == '\n' || c == '\r'

/-- Strip leading and trailing whitespace: models Python str.strip. -/
def trimChars (cs : List Char) : List Char :=
  ((cs.dropWhile isSpaceChar).reverse.dropWhile isSpaceChar).reverse

/-- `.str.lower().str.strip()` on one string. -/
def lowerTrim (s : String) : String :=
  String.mk (trimChars (s.toList.map lowerChar))

/-- `.astype(str)` on one cell: the string rendering pandas uses (the NaN case
is never consumed, since the source keeps missing cells as they are). -/
def cellStr : Cell → String
  | Cell.na => "nan"
  | Cell.int n => toString n
  | Cell.str s => s

/-- The semantic null tokens (src/app.py lines 109-112). -/
def common_nulls : List String :=
  ["not recorded", "not applicable", "not known", "unknown", "missing",
   "none", "null", "n/a", "na", "not available", "refused", "blank", "", "nan"]

/-- Step 1 of the per-column cleaning (src/app.py lines 120-123):
`series.where(series.isna(), series.astype(str).str.lower().str.strip())` —
missing cells are kept, every other cell is stringified, lower-cased and
trimmed. -/
def whereLowerStrip (cells : List Cell) : List Cell :=
  cells.map (fun c => if isNa c then c else Cell.str (lowerTrim (cellStr c)))

/-- Step 2 of the per-column cleaning (src/app.py line 124):
`series.replace(common_nulls, np.nan)` — a cell equal to one of the tokens
becomes missing. -/
def replaceNulls (cells : List Cell) : List Cell :=
  cells.map (fun c =>
    if common_nulls.any (fun tk => c == Cell.str tk) then Cell.na else c)

/-- The dtype test of src/app.py line 119 (is_object_dtype or is_string_dtype):
the text columns of a CSV-loaded frame are the object-dtype ones. -/
def isTextDtype (d : Dtype) : Bool :=
  d == Dtype.object

/-- normalize_and_replace_nulls (src/app.py lines 116-125): each text-typed
column is cleaned by the two steps above; the input frame is first copied
(`dfc = df_to_clean.copy()`), so the returned table is a fresh value. -/
def normalize_and_replace_nulls (df : Table) : Table :=
  df.map (fun col =>
    if isTextDtype col.dtype then
      { col with cells := replaceNulls (whereLowerStrip col.cells) }
    else col)

/-! ### Row masks, dropna, sorting, group-by counts -/

/-- Keep the cells whose mask bit is true (boolean row indexing). -/
def applyMask : List Bool → List Cell → List Cell
  | b :: m, c :: cs => if b then c :: applyMask m cs else applyMask m cs
  | _, _ => []

/-- Apply a row mask to every column of a table. -/
def maskTable (mask : List Bool) : Table → Table
  | [] => []
  | col :: t => { col with cells := applyMask mask col.cells } :: maskTable mask t

/-- `df.dropna(subset=[c])`: keep the rows whose value in column c is not
missing. -/
def dropnaSubset (df : Table) (c : String) : Table :=
  maskTable ((getCells df c).map (fun v => !isNa v)) df

/-- Insert into a list sorted by le, before the first element not below a. -/
def insertBy {α : Type} (le : α → α → Bool) (a : α) : List α → List α
  | [] => [a]
  | b :: t => if le a b then a :: b :: t else b :: insertBy le a t

/-- Insertion sort by the boolean relation le.  Models the (stable) sorting
done by pandas groupby and sort_values. -/
def sortBy {α : Type} (le : α → α → Bool) : List α → List α
  | [] => []
  | a :: t => insertBy le a (sortBy le t)

/-- Adjacent-pairs sortedness by le. -/
def isSortedBy {α : Type} (le : α → α → Bool) : List α → Bool
  | [] => true
  | [_] => true
  | a :: b :: t => le a b && isSortedBy le (b :: t)

/-- Lexicographic comparison of character lists (by character code). -/
def charsLe : List Char → List Char → Bool
  | [], _ => true
  | _ :: _, [] => false
  | a :: s, b :: t => if a = b then charsLe s t else decide (a.toNat ≤ b.toNat)

/-- String comparison: models the ordering pandas uses on string group keys. -/
def strLe (s t : String) : Bool :=
  charsLe s.toList t.toList

/-- A total order on cells, modelling the ascending key order of pandas
groupby(sort=True).  Group keys are never missing and never mix integers with
strings in this pipeline (pandas would raise on a mixed-type sort), so the
cross-kind cases are an arbitrary completion. -/
def cellLe : Cell → Cell → Bool
  | Cell.na, _ => true
  | _, Cell.na => false
  | Cell.int m, Cell.int n => decide (m ≤ n)
  | Cell.int _, Cell.str _ => true
  | Cell.str _, Cell.int _ => false
  | Cell.str s, Cell.str t => strLe s t

/-- `series.groupby(key).size()` semantics on the cells of one column: one
entry per distinct non-missing value, keys in ascending order (groupby's
default sort=True), each with the number of rows holding that value. -/
def groupbySizeCol (cells : List Cell) : List (Cell × Nat) :=
  (sortBy cellLe ((cells.filter (fun c => !isNa c)).dedup)).map
    (fun k => (k, cells.count k))

/-- The univariate count view
`df.dropna(subset=[c]).groupby(c).size().reset_index(name='Count')`. -/
def countsBy (df : Table) (c : String) : List (Cell × Nat) :=
  groupbySizeCol (getCells (dropnaSubset df c) c)

/-- Descending-Count comparison used by `.sort_values('Count',
ascending=False)`. -/
def descByCount (a b : Cell × Nat) : Bool :=
  decide (b.2 ≤ a.2)

/-- Ascending-key comparison on (key, count) pairs. -/
def ascByKey (a b : Cell × Nat) : Bool :=
  cellLe a.1 b.1

/-- Number of non-missing cells in a list. -/
def countNonNa (cells : List Cell) : Nat :=
  (cells.filter (fun v => !isNa v)).length

/-- The sum of the per-group counts of a count view. -/
def sumCounts (xs : List (Cell × Nat)) : Nat :=
  (xs.map (fun p => p.2)).sum

/-! ### The visualization page count views (src/app.py lines 266-311) -/

/-- Chart 1 (src/app.py lines 270-275): the Gender donut data, produced only
when a Gender column exists; no sort_values call follows the groupby. -/
def gender_counts (df : Table) : Option (List (Cell × Nat)) :=
  if hasCol df "Gender" then some (countsBy df "Gender") else none

/-- Chart 2 (src/app.py lines 279-282): the Race bar data, sorted by
descending Count. -/
def race_counts (df : Table) : Option (List (Cell × Nat)) :=
  if hasCol df "Race" then some (sortBy descByCount (countsBy df "Race"))
  else none

/-- Chart 3 (src/app.py lines 294-296): the Year trend data (the subsequent
astype('Int64') of the key column re-casts keys that are already Int64). -/
def year_counts (df : Table) : Option (List (Cell × Nat)) :=
  if hasCol df "Year" then some (countsBy df "Year") else none

/-- Chart 4 (src/app.py lines 304-307): the U.S. Census Division bar data,
sorted by descending Count. -/
def div_counts (df : Table) : Option (List (Cell × Nat)) :=
  if hasCol df "USCensusDivision" then
    some (sortBy descByCount (countsBy df "USCensusDivision"))
  else none

/-! ### Filter Engine (modelled from the spec) -/

/-- Modelled from the spec: the Filter Engine of spec section 4.4 is absent
from src/app.py (this variant uses the full dataset everywhere, line 46
`fdf = df`; only near-duplicate repository variants carry the multi-select
filter).  Per the spec, the mask a single selection entry contributes: with a
non-empty admitted set on a present column, row membership of the value in the
set; with an empty admitted set, or a column absent from the table, no filter
(all rows pass). -/
def colMask (df : Table) (c : String) (admitted : List Cell) : List Bool :=
  if admitted = [] then List.replicate (nrows df) true
  else
    match findCol df c with
    | none => List.replicate (nrows df) true
    | some col => col.cells.map (fun v => admitted.contains v)

/-- Pointwise conjunction of two row masks (AND composition of filters). -/
def andMask (m₁ m₂ : List Bool) : List Bool :=
  List.zipWith and m₁ m₂

/-- Modelled from the spec: `filter(Table, selection)` — each selection entry
contributes its mask, the masks combine by logical AND, and the surviving rows
are kept in every column. -/
def filterTable (df : Table) (sel : List (String × List Cell)) : Table :=
  maskTable
    (sel.foldl (fun m p => andMask m (colMask df p.1 p.2))
      (List.replicate (nrows df) true))
    df

/-! ### Missing-value page: the Age Units section (src/app.py lines 143-157) -/

/-- `series.value_counts()`: per-value counts, missing excluded, sorted by
descending count. -/
def valueCounts (cells : List Cell) : List (Cell × Nat) :=
  sortBy descByCount (groupbySizeCol cells)

/-- What the Age Units section renders: either the chart data (the value
counts of the filled column and the number of rows whose age unit is not
'years'), or the st.warning branch when the column is absent. -/
inductive AgeUnitsView
  | chart : List (Cell × Nat) → Nat → AgeUnitsView
  | missingWarning : AgeUnitsView
deriving DecidableEq

/-- The Age Units section (src/app.py lines 143-157): guarded by
`if 'Age Units' in fdf_cleaned.columns`, it fills missing cells with the
string 'Missing', charts the value counts, and counts the rows whose unit is
not 'years'; when the column is absent it emits st.warning instead. -/
def ageUnitsSection (dfc : Table) : AgeUnitsView :=
  if hasCol dfc "Age Units" then
    let au := (getCells dfc "Age Units").map
      (fun c => if isNa c then Cell.str "Missing" else c)
    AgeUnitsView.chart (valueCounts au)
      (au.countP (fun c => c != Cell.str "years"))
  else AgeUnitsView.missingWarning

/-! ### Duplicates page (src/app.py lines 164-231) -/

/-- `series.nunique()`: the number of distinct non-missing values. -/
def nunique (cells : List Cell) : Nat :=
  ((cells.filter (fun c => !isNa c)).dedup).length

/-- The Step 1 metrics of the duplicates page (src/app.py lines 173-175):
total rows, `fdf['PcrKey'].nunique()`, and their difference.  The column
access `fdf['PcrKey']` is unguarded: when the column is absent pandas raises a
KeyError, modelled by the error branch. -/
def pcrKeyAudit (df : Table) : Except String (Nat × Nat × Nat) :=
  match findCol df "PcrKey" with
  | none => Except.error "KeyError: PcrKey"
  | some col =>
    let total_count := nrows df
    let unique_count := nunique col.cells
    Except.ok (total_count, unique_count, total_count - unique_count)

/-- The duplicated keys (src/app.py lines 185-186): the non-missing PcrKey
values occurring more than once (value_counts then the `> 1` filter; the
descending-count order of value_counts is irrelevant here, the list is only
used for membership). -/
def dupKeysList (df : Table) : List Cell :=
  ((getCells df "PcrKey").filter (fun c => !isNa c)).dedup.filter
    (fun k => decide (1 < (getCells df "PcrKey").count k))

/-- `dup_df = fdf[fdf['PcrKey'].isin(dup_keys_list)]` (src/app.py line 187). -/
def dup_df (df : Table) : Table :=
  maskTable ((getCells df "PcrKey").map (fun v => (dupKeysList df).contains v))
    df

/-- The Hypothesis 2 age column fallback (src/app.py line 195):
`'Age_Number' if 'Age_Number' in dup_df.columns else 'PcrKey'`. -/
def age_col (d : Table) : String :=
  if hasCol d "Age_Number" then "Age_Number" else "PcrKey"

/-- The distinct non-missing group keys of a groupby('PcrKey') on a table. -/
def groupKeys (d : Table) : List Cell :=
  ((getCells d "PcrKey").filter (fun c => !isNa c)).dedup

/-- The cells of column c belonging to the group of PcrKey value k. -/
def groupCells (d : Table) (k : Cell) (c : String) : List Cell :=
  applyMask ((getCells d "PcrKey").map (fun v => v == k)) (getCells d c)

/-- Hypothesis 2 (src/app.py lines 194-197): the number of duplicate groups
showing more than one distinct Gender or more than one distinct value of the
age column (`is_multi`). -/
def is_multi (df : Table) : Nat :=
  let d := dup_df df
  (groupKeys d).countP (fun k =>
    decide (1 < nunique (groupCells d k "Gender"))
      || decide (1 < nunique (groupCells d k (age_col d))))

/-! ### Helper lemmas: column update algebra -/

theorem hasCol_setCol (df : Table) (n m : String) (d : Dtype) (vs : List Cell) :
    hasCol (setCol df n d vs) m = hasCol df m := by
  induction df with
  | nil => rfl
  | cons c t ih =>
    by_cases h : c.name = n <;> simp [setCol, hasCol, h, ih]

theorem findCol_setCol_ne (df : Table) {n m : String} (d : Dtype) (vs : List Cell)
    (h : m ≠ n) : findCol (setCol df n d vs) m = findCol df m := by
  induction df with
  | nil => rfl
  | cons c t ih =>
    by_cases hc : c.name = n
    · have hm : ¬(c.name = m) := by rw [hc]; exact fun hh => h hh.symm
      simp [findCol, setCol, hc, hm, ih, Ne.symm h]
    · by_cases hm : c.name = m <;> simp [findCol, setCol, hc, hm, ih, h, Ne.symm h]

theorem getCells_setCol_ne (df : Table) {n m : String} (d : Dtype) (vs : List Cell)
    (h : m ≠ n) : getCells (setCol df n d vs) m = getCells df m := by
  unfold getCells
  rw [findCol_setCol_ne df d vs h]

theorem findCol_setCol_self (df : Table) (n : String) (d : Dtype) (vs : List Cell)
    (h : hasCol df n = true) :
    ∃ c : Col, findCol (setCol df n d vs) n = some c ∧ c.name = n ∧ c.dtype = d
      ∧ c.cells = vs := by
  induction df with
  | nil => simp [hasCol] at h
  | cons c t ih =>
    by_cases hc : c.name = n
    · exact ⟨{ c with dtype := d, cells := vs }, by simp [findCol, setCol, hc],
        hc, rfl, rfl⟩
    · have h' : hasCol t n = true := by simpa [hasCol, hc] using h
      obtain ⟨c', hf, hn, hd, hcs⟩ := ih h'
      exact ⟨c', by simpa [findCol, setCol, hc] using hf, hn, hd, hcs⟩

theorem getCells_setCol_self (df : Table) (n : String) (d : Dtype) (vs : List Cell)
    (h : hasCol df n = true) : getCells (setCol df n d vs) n = vs := by
  obtain ⟨c, hf, _, _, hcs⟩ := findCol_setCol_self df n d vs h
  simp [getCells, hf, hcs]

theorem setCol_setCol_self (df : Table) (n : String) (d₁ d₂ : Dtype)
    (v₁ v₂ : List Cell) :
    setCol (setCol df n d₁ v₁) n d₂ v₂ = setCol df n d₂ v₂ := by
  induction df with
  | nil => rfl
  | cons c t ih =>
    by_cases hc : c.name = n <;> simp [setCol, hc, ih]

theorem setCol_comm (df : Table) {n m : String} (d₁ d₂ : Dtype) (v₁ v₂ : List Cell)
    (h : n ≠ m) :
    setCol (setCol df n d₁ v₁) m d₂ v₂ = setCol (setCol df m d₂ v₂) n d₁ v₁ := by
  induction df with
  | nil => rfl
  | cons c t ih =>
    by_cases hc : c.name = n
    · have hm : ¬(c.name = m) := by rw [hc]; exact h
      simp [setCol, hc, hm, ih, h, Ne.symm h]
    · by_cases hm : c.name = m <;> simp [setCol, hc, hm, ih, h, Ne.symm h]

/-! ### Helper lemmas: Year coercion roundtrip -/

/-- A cell a successful Int64 cast can produce: integer or missing. -/
def isIntNa : Cell → Bool
  | Cell.na => true
  | Cell.int _ => true
  | Cell.str _ => false

theorem astypeInt64_ok_intNa {xs : List (Option Dec)} {vs : List Cell}
    (h : astypeInt64 xs = Except.ok vs) : ∀ c ∈ vs, isIntNa c = true := by
  unfold astypeInt64 at h
  by_cases hall : xs.all isIntegralD = true
  · simp [hall] at h
    subst h
    intro c hc
    obtain ⟨o, _, ho⟩ := List.mem_map.mp hc
    cases o <;> simp [← ho, isIntNa]
  · simp [hall] at h

theorem astypeInt64_to_numeric_roundtrip {vs : List Cell}
    (h : ∀ c ∈ vs, isIntNa c = true) :
    astypeInt64 (to_numeric vs) = Except.ok vs := by
  have hall : (to_numeric vs).all isIntegralD = true := by
    rw [List.all_eq_true]
    intro o ho
    obtain ⟨c, hc, rfl⟩ := List.mem_map.mp ho
    cases c with
    | na => simp [toNumCell, isIntegralD]
    | int n => simp [toNumCell, isIntegralD]
    | str s =>
      have hs := h _ hc
      simp [isIntNa] at hs
  unfold astypeInt64
  rw [hall]
  simp only [if_true]
  congr 1
  unfold to_numeric
  rw [List.map_map]
  have hmap : ∀ c ∈ vs,
      ((fun o => match o with
        | none => Cell.na
        | some d => Cell.int (d.mant / (10 : Int) ^ d.exp)) ∘ toNumCell) c = id c := by
    intro c hc
    cases c with
    | na => simp [toNumCell]
    | int n => simp [toNumCell]
    | str s =>
      have hs := h _ hc
      simp [isIntNa] at hs
  rw [List.map_congr_left hmap, List.map_id]

/-! ### Helper lemmas: insertion sort -/

theorem perm_insertBy {α : Type} (le : α → α → Bool) (a : α) (l : List α) :
    List.Perm (insertBy le a l) (a :: l) := by
  induction l with
  | nil => exact List.Perm.refl _
  | cons b t ih =>
    by_cases h : le a b = true
    · simp [insertBy, h]
    · simp only [insertBy, h, if_false, Bool.false_eq_true]
      exact List.Perm.trans (List.Perm.cons b ih) (List.Perm.swap a b t)

theorem perm_sortBy {α : Type} (le : α → α → Bool) (l : List α) :
    List.Perm (sortBy le l) l := by
  induction l with
  | nil => exact List.Perm.refl _
  | cons a t ih =>
    exact List.Perm.trans (perm_insertBy le a (sortBy le t)) (List.Perm.cons a ih)

theorem sorted_insertBy {α : Type} {le : α → α → Bool}
    (tot : ∀ x y, (le x y || le y x) = true) (a : α) {l : List α}
    (h : isSortedBy le l = true) : isSortedBy le (insertBy le a l) = true := by
  induction l with
  | nil => rfl
  | cons b t ih =>
    by_cases hab : le a b = true
    · simpa [insertBy, isSortedBy, hab] using h
    · have hba : le b a = true := by
        have := tot a b
        simp [hab] at this
        exact this
      cases t with
      | nil => simp [insertBy, isSortedBy, hab, hba]
      | cons c s =>
        have hbc : le b c = true := by
          simp [isSortedBy] at h
          exact h.1
        have hts : isSortedBy le (c :: s) = true := by
          simp [isSortedBy] at h ⊢
          exact h.2
        have hins := ih hts
        simp only [insertBy, hab, if_false, Bool.false_eq_true]
        by_cases hac : le a c = true
        · simp [insertBy, isSortedBy, hac, hba] at hins ⊢
          exact hins
        · simp [insertBy, isSortedBy, hac, hbc] at hins ⊢
          exact hins

theorem sorted_sortBy {α : Type} {le : α → α → Bool}
    (tot : ∀ x y, (le x y || le y x) = true) (l : List α) :
    isSortedBy le (sortBy le l) = true := by
  induction l with
  | nil => rfl
  | cons a t ih => exact sorted_insertBy tot a ih

/-! ### Helper lemmas: postprocess idempotence -/

theorem ageCat_idem (c : Cell) : ageCat (ageCat c) = ageCat c := by
  cases c with
  | str s =>
    by_cases h : s ∈ order <;> simp [ageCat, h]
  | na => rfl
  | int n => rfl

theorem hasCol_postprocessAge (df : Table) (m : String) :
    hasCol (postprocessAge df) m = hasCol df m := by
  unfold postprocessAge
  by_cases h : hasCol df "AgeGroup" = true <;> simp [h, hasCol_setCol]

theorem getCells_postprocessAge_ne (df : Table) {m : String}
    (h : m ≠ "AgeGroup") : getCells (postprocessAge df) m = getCells df m := by
  unfold postprocessAge
  by_cases hA : hasCol df "AgeGroup" = true <;>
    simp [hA, getCells_setCol_ne _ _ _ h]

theorem postprocessAge_postprocessAge (d : Table) :
    postprocessAge (postprocessAge d) = postprocessAge d := by
  by_cases h : hasCol d "AgeGroup" = true
  · unfold postprocessAge
    simp only [h, if_true, hasCol_setCol, getCells_setCol_self d _ _ _ h,
      List.map_map, setCol_setCol_self]
    have : ageCat ∘ ageCat = ageCat := by
      funext c
      exact ageCat_idem c
    rw [this]
  · unfold postprocessAge
    simp [h]

theorem setCol_postprocessAge_year (d : Table) (ys : List Cell) :
    setCol (postprocessAge (setCol d "Year" Dtype.int64 ys)) "Year" Dtype.int64 ys
      = postprocessAge (setCol d "Year" Dtype.int64 ys) := by
  have hne : "Year" ≠ "AgeGroup" := by decide
  by_cases hA : hasCol (setCol d "Year" Dtype.int64 ys) "AgeGroup" = true
  · unfold postprocessAge
    simp only [hA, if_true]
    rw [setCol_comm _ _ _ _ _ (fun hh => hne hh.symm), setCol_setCol_self]
  · unfold postprocessAge
    simp only [hA, if_false, Bool.false_eq_true, setCol_setCol_self]

/-- postprocess applied to its own successful output returns that output
unchanged. -/
theorem postprocess_second_run {T T' : Table} (h : postprocess T = Except.ok T') :
    postprocess T' = Except.ok T' := by
  unfold postprocess at h
  cases hY : postprocessYear T with
  | error e => rw [hY] at h; exact absurd h (by simp)
  | ok Ty =>
    rw [hY] at h
    have hT' : T' = postprocessAge Ty := by
      have := h
      simp at this
      exact this.symm
    by_cases hYear : hasCol T "Year" = true
    · unfold postprocessYear at hY
      rw [hYear] at hY
      simp only [if_true] at hY
      cases hys : astypeInt64 (to_numeric (getCells T "Year")) with
      | error e => rw [hys] at hY; exact absurd hY (by simp)
      | ok ys =>
        rw [hys] at hY
        have hTy : Ty = setCol T "Year" Dtype.int64 ys := by
          have := hY
          simp at this
          exact this.symm
        have hintna : ∀ c ∈ ys, isIntNa c = true := astypeInt64_ok_intNa hys
        have hYearT' : hasCol T' "Year" = true := by
          rw [hT', hasCol_postprocessAge, hTy, hasCol_setCol]
          exact hYear
        have hcellsT' : getCells T' "Year" = ys := by
          rw [hT', getCells_postprocessAge_ne _ (by decide), hTy,
            getCells_setCol_self _ _ _ _ hYear]
        unfold postprocess postprocessYear
        rw [hYearT']
        simp only [if_true, hcellsT', astypeInt64_to_numeric_roundtrip hintna]
        rw [hT', hTy, setCol_postprocessAge_year, postprocessAge_postprocessAge]
    · have hTyT : Ty = T := by
        unfold postprocessYear at hY
        rw [if_neg hYear] at hY
        have := hY
        simp at this
        exact this.symm
      have hYearT' : hasCol T' "Year" = false := by
        rw [hT', hasCol_postprocessAge, hTyT]
        simpa using hYear
      unfold postprocess postprocessYear
      rw [hYearT']
      simp only [Bool.false_eq_true, if_false]
      rw [hT', postprocessAge_postprocessAge]

theorem astypeInt64_ok_length {xs : List (Option Dec)} {vs : List Cell}
    (h : astypeInt64 xs = Except.ok vs) : vs.length = xs.length := by
  unfold astypeInt64 at h
  by_cases hall : xs.all isIntegralD = true
  · simp [hall] at h
    subst h
    simp
  · simp [hall] at h

/-- Decomposition of a successful postprocess run into its Year phase result
and the final AgeGroup phase. -/
theorem postprocess_ok_decompose {T T' : Table}
    (h : postprocess T = Except.ok T') :
    ∃ Ty ys, T' = postprocessAge Ty
      ∧ ((hasCol T "Year" = true
            ∧ astypeInt64 (to_numeric (getCells T "Year")) = Except.ok ys
            ∧ Ty = setCol T "Year" Dtype.int64 ys)
        ∨ (hasCol T "Year" = false ∧ Ty = T)) := by
  unfold postprocess at h
  cases hY : postprocessYear T with
  | error e => rw [hY] at h; exact absurd h (by simp)
  | ok Ty =>
    rw [hY] at h
    have hT' : T' = postprocessAge Ty := by
      have := h
      simp at this
      exact this.symm
    by_cases hYear : hasCol T "Year" = true
    · unfold postprocessYear at hY
      rw [hYear] at hY
      simp only [if_true] at hY
      cases hys : astypeInt64 (to_numeric (getCells T "Year")) with
      | error e => rw [hys] at hY; exact absurd hY (by simp)
      | ok ys =>
        rw [hys] at hY
        have hTy : Ty = setCol T "Year" Dtype.int64 ys := by
          have := hY
          simp at this
          exact this.symm
        exact ⟨Ty, ys, hT', Or.inl ⟨hYear, rfl, hTy⟩⟩
    · have hTy : Ty = T := by
        unfold postprocessYear at hY
        rw [if_neg hYear] at hY
        have := hY
        simp at this
        exact this.symm
      exact ⟨Ty, [], hT', Or.inr ⟨by simpa using hYear, hTy⟩⟩

/-- C1: postprocess is idempotent.  For every table T on which postprocess
succeeds with output T' (including tables carrying a Year column, coerced to
nullable integer, and an AgeGroup column, given the fixed ordered categorical
domain), postprocess applied to its own output returns a table identical to
the single application: postprocess T' = Except.ok T'. -/
theorem c1_postprocess_idempotent (T T' : Table)
    (h : postprocess T = Except.ok T') : postprocess T' = Except.ok T' :=
  postprocess_second_run h

/-- Witness for C1: a concrete table with a Year column (a parseable year, an
unparseable string and a missing cell) and an AgeGroup column (an in-domain
value, an out-of-domain value and a missing cell). -/
theorem c1_postprocess_idempotent_witness :
    postprocess
        [⟨"Year", Dtype.int64, [Cell.int 2020, Cell.na, Cell.na]⟩,
         ⟨"AgeGroup", Dtype.categorical order true,
            [Cell.str "25-34", Cell.na, Cell.na]⟩,
         ⟨"Race", Dtype.object, [Cell.str "white", Cell.str "black", Cell.na]⟩]
      = Except.ok
        [⟨"Year", Dtype.int64, [Cell.int 2020, Cell.na, Cell.na]⟩,
         ⟨"AgeGroup", Dtype.categorical order true,
            [Cell.str "25-34", Cell.na, Cell.na]⟩,
         ⟨"Race", Dtype.object, [Cell.str "white", Cell.str "black", Cell.na]⟩] :=
  c1_postprocess_idempotent
    [⟨"Year", Dtype.object, [Cell.str "2020", Cell.str "abc", Cell.na]⟩,
     ⟨"AgeGroup", Dtype.object, [Cell.str "25-34", Cell.str "99", Cell.na]⟩,
     ⟨"Race", Dtype.object, [Cell.str "white", Cell.str "black", Cell.na]⟩]
    _ (by decide)

/-- C3: Year coercion is not total (code bug).  The coercion does map
unparseable strings to missing without raising, but on a non-integral numeral
such as "3.5" the pd.to_numeric result is 3.5 and the subsequent
.astype('Int64') raises (pandas refuses the unsafe float-to-int cast), so
postprocess errors instead of producing a missing value. -/
theorem c3_year_coercion_raises_on_non_integral :
    postprocess [⟨"Year", Dtype.object, [Cell.str "abc", Cell.str "2020"]⟩]
        = Except.ok [⟨"Year", Dtype.int64, [Cell.na, Cell.int 2020]⟩]
      ∧ postprocess [⟨"Year", Dtype.object, [Cell.str "3.5"]⟩]
        = Except.error "cannot safely cast non-equivalent float64 to int64" :=
  ⟨by decide, by decide⟩

/-- C4 counterexample: postprocess is not pure.  The source assigns the
coerced Year column into its argument in place (`df['Year'] = ...`), so after
the call the caller's table is the post-processed one, not the original: at a
concrete one-column Year table the caller's table differs from its pre-call
value. -/
theorem c4_postprocess_not_pure_counterexample :
    callerAfterPostprocess [⟨"Year", Dtype.object, [Cell.str "2020"]⟩]
      ≠ Except.ok [⟨"Year", Dtype.object, [Cell.str "2020"]⟩] := by
  decide

/-- C4 amended: postprocess mutates its argument in place and returns it.
After the call the caller's table equals the returned post-processed table
rather than the pre-call value (which the counterexample shows can differ);
in particular a table with neither a Year nor an AgeGroup column is returned
unchanged. -/
theorem c4_postprocess_inplace (T : Table) :
    callerAfterPostprocess T = postprocess T
      ∧ (hasCol T "Year" = false → hasCol T "AgeGroup" = false →
          callerAfterPostprocess T = Except.ok T) := by
  refine ⟨rfl, fun hY hA => ?_⟩
  unfold callerAfterPostprocess postprocess postprocessYear postprocessAge
  simp [hY, hA]

/-- Witness for C4 amended at a table with neither coerced column. -/
theorem c4_postprocess_inplace_witness :
    callerAfterPostprocess [⟨"Race", Dtype.object, [Cell.str "white"]⟩]
      = Except.ok [⟨"Race", Dtype.object, [Cell.str "white"]⟩] :=
  (c4_postprocess_inplace [⟨"Race", Dtype.object, [Cell.str "white"]⟩]).2
    (by decide) (by decide)

/-- C5: AgeGroup handling.  For every table with an AgeGroup column on which
postprocess succeeds: the AgeGroup column is rewritten cell-wise by the
categorical coercion and carries the fixed ordered 8-value domain as its
dtype; the coercion keeps exactly the in-domain string values and turns every
other value into missing; each column keeps its number of rows; and every
column other than Year and AgeGroup is untouched. -/
theorem c5_agegroup_domain (T T' : Table) (h : postprocess T = Except.ok T')
    (hA : hasCol T "AgeGroup" = true) :
    getCells T' "AgeGroup" = (getCells T "AgeGroup").map ageCat
      ∧ (∃ col : Col, findCol T' "AgeGroup" = some col
          ∧ col.dtype = Dtype.categorical order true)
      ∧ (∀ c : Cell, (∃ s ∈ order, c = Cell.str s ∧ ageCat c = c)
          ∨ ageCat c = Cell.na)
      ∧ (∀ m : String, (getCells T' m).length = (getCells T m).length)
      ∧ (∀ m : String, m ≠ "Year" → m ≠ "AgeGroup" → findCol T' m = findCol T m) := by
  obtain ⟨Ty, ys, hT', hcases⟩ := postprocess_ok_decompose h
  have hAA : ("AgeGroup" : String) ≠ "Year" := by decide
  have hATy : hasCol Ty "AgeGroup" = true := by
    rcases hcases with ⟨_, _, hTy⟩ | ⟨_, hTy⟩ <;> rw [hTy]
    · rw [hasCol_setCol]; exact hA
    · exact hA
  have hcellsTy : getCells Ty "AgeGroup" = getCells T "AgeGroup" := by
    rcases hcases with ⟨_, _, hTy⟩ | ⟨_, hTy⟩ <;> rw [hTy]
    exact getCells_setCol_ne _ _ _ hAA
  have hfindTy : ∀ m : String, m ≠ "Year" → findCol Ty m = findCol T m := by
    intro m hm
    rcases hcases with ⟨_, _, hTy⟩ | ⟨_, hTy⟩ <;> rw [hTy]
    exact findCol_setCol_ne _ _ _ hm
  have hlenTy : ∀ m : String, (getCells Ty m).length = (getCells T m).length := by
    intro m
    by_cases hm : m = "Year"
    · subst hm
      rcases hcases with ⟨hY, hys, hTy⟩ | ⟨_, hTy⟩ <;> rw [hTy]
      · rw [getCells_setCol_self _ _ _ _ hY, astypeInt64_ok_length hys]
        simp [to_numeric]
    · rw [show getCells Ty m = getCells T m from by
        unfold getCells; rw [hfindTy m hm]]
  have hT'eq : T' = setCol Ty "AgeGroup" (Dtype.categorical order true)
      ((getCells Ty "AgeGroup").map ageCat) := by
    rw [hT']
    unfold postprocessAge
    rw [hATy]
    simp
  refine ⟨?_, ?_, ?_, ?_, ?_⟩
  · rw [hT'eq, getCells_setCol_self _ _ _ _ hATy, hcellsTy]
  · obtain ⟨col, hf, _, hd, _⟩ := findCol_setCol_self Ty "AgeGroup"
      (Dtype.categorical order true) ((getCells Ty "AgeGroup").map ageCat) hATy
    exact ⟨col, by rw [hT'eq]; exact hf, hd⟩
  · intro c
    cases c with
    | str s =>
      by_cases hs : s ∈ order
      · exact Or.inl ⟨s, hs, rfl, by simp [ageCat, hs]⟩
      · exact Or.inr (by simp [ageCat, hs])
    | na => exact Or.inr rfl
    | int n => exact Or.inr rfl
  · intro m
    by_cases hm : m = "AgeGroup"
    · subst hm
      rw [hT'eq, getCells_setCol_self _ _ _ _ hATy, List.length_map, hcellsTy]
    · rw [hT'eq, getCells_setCol_ne _ _ _ hm, hlenTy]
  · intro m hmY hmA
    rw [hT'eq, findCol_setCol_ne _ _ _ hmA, hfindTy m hmY]

/-- Witness for C5 at a concrete table: the in-domain value "25-34" is kept,
the out-of-domain value "99" becomes missing, the row count stays 3, and the
Race column is untouched. -/
theorem c5_agegroup_domain_witness :
    getCells
        [⟨"AgeGroup", Dtype.categorical order true,
            [Cell.str "25-34", Cell.na, Cell.na]⟩,
         ⟨"Race", Dtype.object, [Cell.str "white", Cell.str "black", Cell.na]⟩]
        "AgeGroup"
      = (getCells
          [⟨"AgeGroup", Dtype.object,
              [Cell.str "25-34", Cell.str "99", Cell.na]⟩,
           ⟨"Race", Dtype.object, [Cell.str "white", Cell.str "black", Cell.na]⟩]
          "AgeGroup").map ageCat :=
  (c5_agegroup_domain
    [⟨"AgeGroup", Dtype.object, [Cell.str "25-34", Cell.str "99", Cell.na]⟩,
     ⟨"Race", Dtype.object, [Cell.str "white", Cell.str "black", Cell.na]⟩]
    [⟨"AgeGroup", Dtype.categorical order true,
        [Cell.str "25-34", Cell.na, Cell.na]⟩,
     ⟨"Race", Dtype.object, [Cell.str "white", Cell.str "black", Cell.na]⟩]
    (by decide) (by decide)).1

/-! ### C2: null normalization -/

theorem replaceNulls_str_cell (t : String) :
    (if common_nulls.any (fun tk => Cell.str t == Cell.str tk) then Cell.na
      else Cell.str t)
      = (if t ∈ common_nulls then Cell.na else Cell.str t) := by
  have hany : (common_nulls.any (fun tk => Cell.str t == Cell.str tk) = true)
      ↔ t ∈ common_nulls := by
    rw [List.any_eq_true]
    constructor
    · rintro ⟨x, hx, hbeq⟩
      have hte : Cell.str t = Cell.str x := eq_of_beq hbeq
      rw [Cell.str.injEq] at hte
      rw [hte]
      exact hx
    · intro ht
      exact ⟨t, ht, by simp⟩
  by_cases ht : t ∈ common_nulls
  · rw [if_pos (hany.mpr ht), if_pos ht]
  · rw [if_neg (fun hh => ht (hany.mp hh)), if_neg ht]

/-- C2: null normalization.  The two-step cleaning of a text column (where +
astype(str)/lower/strip, then replace) acts cell-wise: a missing cell stays
missing, every other cell is lower-cased and trimmed, and it becomes the
canonical missing marker exactly when that lowered/trimmed result is a member
of the null-token set; in particular the column ["Unknown", " N/A ", "Male"]
becomes [missing, missing, "male"]. -/
theorem c2_null_normalization :
    (∀ cells : List Cell,
        replaceNulls (whereLowerStrip cells) = cells.map (fun c =>
          if isNa c = true then Cell.na
          else if lowerTrim (cellStr c) ∈ common_nulls then Cell.na
          else Cell.str (lowerTrim (cellStr c))))
      ∧ normalize_and_replace_nulls
          [⟨"Gender", Dtype.object,
              [Cell.str "Unknown", Cell.str " N/A ", Cell.str "Male"]⟩]
        = [⟨"Gender", Dtype.object, [Cell.na, Cell.na, Cell.str "male"]⟩] := by
  constructor
  · intro cells
    unfold replaceNulls whereLowerStrip
    rw [List.map_map]
    apply List.map_congr_left
    intro c _
    cases c with
    | na => decide
    | int n =>
      simp [isNa, Function.comp, replaceNulls_str_cell]
    | str s =>
      simp [isNa, Function.comp, replaceNulls_str_cell]
  · decide

/-! ### Helper lemmas: totality of the comparison relations -/

theorem charsLe_total (s t : List Char) : (charsLe s t || charsLe t s) = true := by
  induction s generalizing t with
  | nil => simp [charsLe]
  | cons a s ih =>
    cases t with
    | nil => simp [charsLe]
    | cons b t =>
      by_cases hab : a = b
      · subst hab
        simpa [charsLe] using ih t
      · have hba : ¬b = a := fun hh => hab hh.symm
        simp [charsLe, hab, hba]
        exact Nat.le_total a.toNat b.toNat

theorem strLe_total (s t : String) : (strLe s t || strLe t s) = true :=
  charsLe_total s.toList t.toList

theorem cellLe_total (a b : Cell) : (cellLe a b || cellLe b a) = true := by
  cases a with
  | na => simp [cellLe]
  | int m =>
    cases b with
    | na => simp [cellLe]
    | int n => simpa [cellLe] using Int.le_total m n
    | str t => simp [cellLe]
  | str s =>
    cases b with
    | na => simp [cellLe]
    | int n => simp [cellLe]
    | str t => exact strLe_total s t

theorem descByCount_total (a b : Cell × Nat) :
    (descByCount a b || descByCount b a) = true := by
  simpa [descByCount] using Nat.le_total b.2 a.2

theorem ascByKey_total (a b : Cell × Nat) :
    (ascByKey a b || ascByKey b a) = true :=
  cellLe_total a.1 b.1

/-! ### Helper lemmas: group-by counts -/

theorem applyMask_nil (m : List Bool) : applyMask m [] = [] := by
  cases m <;> rfl

theorem getCells_maskTable (m : List Bool) (df : Table) (n : String) :
    getCells (maskTable m df) n = applyMask m (getCells df n) := by
  induction df with
  | nil => simp [maskTable, getCells, findCol, applyMask_nil]
  | cons col t ih =>
    by_cases h : col.name = n
    · simp [maskTable, getCells, findCol, h]
    · simpa [maskTable, getCells, findCol, h] using ih

theorem applyMask_map_filter (p : Cell → Bool) (l : List Cell) :
    applyMask (l.map p) l = l.filter p := by
  induction l with
  | nil => rfl
  | cons c t ih =>
    by_cases h : p c = true <;> simp [applyMask, List.filter_cons, h, ih]

theorem countsBy_cells (df : Table) (c : String) :
    getCells (dropnaSubset df c) c = (getCells df c).filter (fun v => !isNa v) := by
  unfold dropnaSubset
  rw [getCells_maskTable, applyMask_map_filter]

theorem sumCounts_groupbySizeCol (cells : List Cell) :
    sumCounts (groupbySizeCol cells) = countNonNa cells := by
  unfold sumCounts groupbySizeCol countNonNa
  rw [List.map_map]
  have h1 : ((fun p : Cell × Nat => p.2) ∘ fun k => (k, cells.count k))
      = fun k => cells.count k := rfl
  rw [h1]
  have hperm := List.Perm.map (fun k => cells.count k)
    (perm_sortBy cellLe (cells.filter (fun c => !isNa c)).dedup)
  rw [List.Perm.sum_eq hperm]
  have h2 : ∀ k ∈ (cells.filter (fun c => !isNa c)).dedup,
      cells.count k = (cells.filter (fun c => !isNa c)).count k := by
    intro k hk
    have hkl : k ∈ cells.filter (fun c => !isNa c) := List.mem_dedup.mp hk
    have hp := List.of_mem_filter hkl
    exact (@List.count_filter Cell _ _ (fun c => !isNa c) k cells hp).symm
  rw [List.map_congr_left h2, List.sum_map_count_dedup_eq_length]

theorem groupbySizeCol_keys_nonNa (cells : List Cell) :
    ∀ p ∈ groupbySizeCol cells, isNa p.1 = false := by
  intro p hp
  unfold groupbySizeCol at hp
  obtain ⟨k, hk, rfl⟩ := List.mem_map.mp hp
  have hk' : k ∈ (cells.filter (fun c => !isNa c)).dedup :=
    (perm_sortBy _ _).mem_iff.mp hk
  have hkl := List.mem_dedup.mp hk'
  have hneg := List.of_mem_filter hkl
  simpa using hneg

theorem isSortedBy_groupbySizeCol (cells : List Cell) :
    isSortedBy ascByKey (groupbySizeCol cells) = true := by
  unfold groupbySizeCol
  have hs := sorted_sortBy cellLe_total (cells.filter (fun c => !isNa c)).dedup
  revert hs
  generalize sortBy cellLe (cells.filter (fun c => !isNa c)).dedup = ks
  intro hs
  induction ks with
  | nil => rfl
  | cons k1 rest ih =>
    cases rest with
    | nil => rfl
    | cons k2 t =>
      simp only [isSortedBy, Bool.and_eq_true] at hs
      simp only [List.map_cons, isSortedBy, Bool.and_eq_true]
      exact ⟨hs.1, by simpa [List.map_cons] using ih hs.2⟩

/-- C7 counterexample: the Gender univariate view is not sorted by descending
count.  At the table with Gender = ["a","b","b"], the view produced by the
groupby (whose default order is ascending by key, with no sort_values call) is
[(a,1),(b,2)], which is not in descending-count order. -/
theorem c7_gender_not_desc_counterexample :
    gender_counts [⟨"Gender", Dtype.object,
        [Cell.str "a", Cell.str "b", Cell.str "b"]⟩]
      = some [(Cell.str "a", 1), (Cell.str "b", 2)]
      ∧ isSortedBy descByCount [(Cell.str "a", 1), (Cell.str "b", 2)] = false :=
  ⟨by decide, by decide⟩

/-- C7 amended: of the univariate count views, the Race and USCensusDivision
views (which call sort_values) are sorted by descending count, while the
Gender view carries the groupby default order — ascending by group key — and
not descending count order. -/
theorem c7_univariate_view_order (df : Table) :
    (∀ r, race_counts df = some r → isSortedBy descByCount r = true)
      ∧ (∀ r, div_counts df = some r → isSortedBy descByCount r = true)
      ∧ (∀ r, gender_counts df = some r → isSortedBy ascByKey r = true) := by
  refine ⟨fun r hr => ?_, fun r hr => ?_, fun r hr => ?_⟩
  · unfold race_counts at hr
    by_cases h : hasCol df "Race" = true
    · rw [if_pos h] at hr
      have hr' : r = sortBy descByCount (countsBy df "Race") := by
        have := hr
        simp at this
        exact this.symm
      rw [hr']
      exact sorted_sortBy descByCount_total _
    · rw [if_neg h] at hr
      exact absurd hr (by simp)
  · unfold div_counts at hr
    by_cases h : hasCol df "USCensusDivision" = true
    · rw [if_pos h] at hr
      have hr' : r = sortBy descByCount (countsBy df "USCensusDivision") := by
        have := hr
        simp at this
        exact this.symm
      rw [hr']
      exact sorted_sortBy descByCount_total _
    · rw [if_neg h] at hr
      exact absurd hr (by simp)
  · unfold gender_counts at hr
    by_cases h : hasCol df "Gender" = true
    · rw [if_pos h] at hr
      have hr' : r = countsBy df "Gender" := by
        have := hr
        simp at this
        exact this.symm
      rw [hr']
      exact isSortedBy_groupbySizeCol _
    · rw [if_neg h] at hr
      exact absurd hr (by simp)

/-- Witness for C7 amended: at a concrete Race table the sorted view is in
descending-count order. -/
theorem c7_univariate_view_order_witness :
    isSortedBy descByCount [(Cell.str "b", 2), (Cell.str "a", 1)] = true :=
  (c7_univariate_view_order
      [⟨"Race", Dtype.object, [Cell.str "a", Cell.str "b", Cell.str "b"]⟩]).1
    [(Cell.str "b", 2), (Cell.str "a", 1)] (by decide)

/-- C8: count conservation.  For every table and grouping column, the
univariate count view drops missing values of the grouping column before
counting: the sum of the per-group counts equals the number of rows whose
value in that column is non-missing, and no missing bucket ever appears; the
Gender and Year chart views are exactly this count view on their columns. -/
theorem c8_count_conservation (df : Table) (c : String) :
    sumCounts (countsBy df c) = countNonNa (getCells df c)
      ∧ (∀ p ∈ countsBy df c, isNa p.1 = false)
      ∧ (hasCol df "Gender" = true →
          gender_counts df = some (countsBy df "Gender"))
      ∧ (hasCol df "Year" = true → year_counts df = some (countsBy df "Year")) := by
  refine ⟨?_, ?_, fun h => by simp [gender_counts, h],
    fun h => by simp [year_counts, h]⟩
  · unfold countsBy
    rw [countsBy_cells, sumCounts_groupbySizeCol]
    unfold countNonNa
    rw [List.filter_filter]
    simp
  · unfold countsBy
    exact groupbySizeCol_keys_nonNa _

/-- Witness for C8 at a concrete Gender table with one missing cell: the view
counts 2 + 1 = 3 of the 4 rows, and the Gender chart equals the count view. -/
theorem c8_count_conservation_witness :
    sumCounts (countsBy
        [⟨"Gender", Dtype.object,
            [Cell.str "male", Cell.na, Cell.str "female", Cell.str "male"]⟩]
        "Gender")
      = countNonNa (getCells
          [⟨"Gender", Dtype.object,
              [Cell.str "male", Cell.na, Cell.str "female", Cell.str "male"]⟩]
          "Gender")
      ∧ gender_counts
          [⟨"Gender", Dtype.object,
              [Cell.str "male", Cell.na, Cell.str "female", Cell.str "male"]⟩]
        = some (countsBy
            [⟨"Gender", Dtype.object,
                [Cell.str "male", Cell.na, Cell.str "female", Cell.str "male"]⟩]
            "Gender") :=
  ⟨(c8_count_conservation
      [⟨"Gender", Dtype.object,
          [Cell.str "male", Cell.na, Cell.str "female", Cell.str "male"]⟩]
      "Gender").1,
   (c8_count_conservation
      [⟨"Gender", Dtype.object,
          [Cell.str "male", Cell.na, Cell.str "female", Cell.str "male"]⟩]
      "Gender").2.2.1 (by decide)⟩

/-! ### C6: filter pass-through -/

theorem applyMask_replicate_true (cells : List Cell) :
    ∀ n, cells.length ≤ n → applyMask (List.replicate n true) cells = cells := by
  induction cells with
  | nil => intro n _; exact applyMask_nil _
  | cons c cs ih =>
    intro n hn
    cases n with
    | zero => simp at hn
    | succ m =>
      simp only [List.replicate_succ, applyMask, if_true]
      rw [ih m (by simpa using hn)]

theorem maskTable_replicate_true :
    ∀ (df : Table) (n : Nat), (∀ col ∈ df, col.cells.length ≤ n) →
      maskTable (List.replicate n true) df = df := by
  intro df
  induction df with
  | nil => intro n _; rfl
  | cons col t ih =>
    intro n h
    simp only [maskTable]
    rw [applyMask_replicate_true _ _ (h col (by simp)),
      ih n (fun c hc => h c (List.mem_cons_of_mem col hc))]

theorem andMask_replicate_true (n : Nat) :
    andMask (List.replicate n true) (List.replicate n true)
      = List.replicate n true := by
  induction n with
  | zero => rfl
  | succ m ih => simp only [List.replicate_succ, andMask, List.zipWith_cons_cons] at ih ⊢; rw [ih]; rfl

/-- C6: filter pass-through (the Filter Engine is modelled from the spec, this
repository variant using the full dataset everywhere).  For every rectangular
table: filtering with the empty selection returns the table itself, and a
selection entry whose admitted-value set is empty contributes no filtering
(pass-through), never exclude-all. -/
theorem c6_filter_pass_through (df : Table) (h : Rect df) :
    filterTable df [] = df
      ∧ ∀ (c : String) (sel : List (String × List Cell)),
          filterTable df ((c, []) :: sel) = filterTable df sel := by
  constructor
  · unfold filterTable
    simp only [List.foldl_nil]
    exact maskTable_replicate_true df (nrows df)
      (fun col hc => Nat.le_of_eq (h col hc))
  · intro c sel
    unfold filterTable
    simp only [List.foldl_cons]
    have hcm : colMask df c [] = List.replicate (nrows df) true := by
      unfold colMask
      simp
    rw [hcm, andMask_replicate_true]

/-- Witness for C6 at a concrete rectangular two-column table. -/
theorem c6_filter_pass_through_witness :
    filterTable
        [⟨"Gender", Dtype.object, [Cell.str "male", Cell.str "female"]⟩,
         ⟨"Race", Dtype.object, [Cell.str "white", Cell.na]⟩] []
      = [⟨"Gender", Dtype.object, [Cell.str "male", Cell.str "female"]⟩,
         ⟨"Race", Dtype.object, [Cell.str "white", Cell.na]⟩] :=
  (c6_filter_pass_through
    [⟨"Gender", Dtype.object, [Cell.str "male", Cell.str "female"]⟩,
     ⟨"Race", Dtype.object, [Cell.str "white", Cell.na]⟩] (by decide)).1

/-! ### C9: missing-column defensiveness -/

theorem findCol_eq_none (df : Table) (n : String) (h : hasCol df n = false) :
    findCol df n = none := by
  induction df with
  | nil => rfl
  | cons c t ih =>
    simp only [hasCol, Bool.or_eq_false_iff] at h
    simp only [findCol, h.1, Bool.false_eq_true, if_false]
    exact ih h.2

/-- C9 counterexample: the duplicate audit on PcrKey raises instead of
warning.  On a concrete table without a PcrKey column, the unguarded access
`fdf['PcrKey']` of the duplicates page yields a KeyError, contradicting the
claim that the audit never raises when its column is missing. -/
theorem c9_pcrkey_audit_raises_counterexample :
    pcrKeyAudit [⟨"Gender", Dtype.object, [Cell.str "male"]⟩]
      = Except.error "KeyError: PcrKey" := by
  decide

/-- C9 amended: defensiveness holds for the Age Units analysis — when its
column is absent it emits the warning branch and never raises — but not for
the PcrKey duplicate audit, whose unguarded column access raises a KeyError
whenever PcrKey is absent. -/
theorem c9_missing_column_defensiveness (df : Table) :
    (hasCol df "Age Units" = false →
        ageUnitsSection df = AgeUnitsView.missingWarning)
      ∧ (hasCol df "PcrKey" = false →
          pcrKeyAudit df = Except.error "KeyError: PcrKey") := by
  constructor
  · intro h
    unfold ageUnitsSection
    rw [h]
    simp
  · intro h
    unfold pcrKeyAudit
    rw [findCol_eq_none df "PcrKey" h]

/-- Witness for C9 amended at a concrete table lacking both columns. -/
theorem c9_missing_column_defensiveness_witness :
    ageUnitsSection [⟨"Race", Dtype.object, [Cell.str "white"]⟩]
        = AgeUnitsView.missingWarning
      ∧ pcrKeyAudit [⟨"Race", Dtype.object, [Cell.str "white"]⟩]
        = Except.error "KeyError: PcrKey" :=
  ⟨(c9_missing_column_defensiveness
      [⟨"Race", Dtype.object, [Cell.str "white"]⟩]).1 (by decide),
   (c9_missing_column_defensiveness
      [⟨"Race", Dtype.object, [Cell.str "white"]⟩]).2 (by decide)⟩

/-! ### C10: the Age_Number fallback in the multi-subject check -/

theorem hasCol_maskTable (m : List Bool) (df : Table) (n : String) :
    hasCol (maskTable m df) n = hasCol df n := by
  induction df with
  | nil => rfl
  | cons col t ih => simp [maskTable, hasCol, ih]

theorem mem_applyMask_self_eq (k : Cell) :
    ∀ (l : List Cell), ∀ x ∈ applyMask (l.map (fun v => v == k)) l, x = k := by
  intro l
  induction l with
  | nil => intro x hx; simp [applyMask] at hx
  | cons c cs ih =>
    intro x hx
    by_cases hc : c = k
    · simp only [List.map_cons, applyMask, hc] at hx
      rw [if_pos (by simp)] at hx
      rcases List.mem_cons.mp hx with hx | hx
      · exact hx
      · exact ih x hx
    · simp only [List.map_cons, applyMask] at hx
      rw [if_neg (by simp [hc])] at hx
      exact ih x hx

theorem dedup_length_le_one {k : Cell} :
    ∀ (m : List Cell), (∀ x ∈ m, x = k) → m.dedup.length ≤ 1 := by
  intro m
  induction m with
  | nil => intro _; simp
  | cons a as ih =>
    intro h
    by_cases hmem : a ∈ as
    · rw [List.dedup_cons_of_mem hmem]
      exact ih (fun x hx => h x (List.mem_cons_of_mem a hx))
    · cases as with
      | nil => simp
      | cons b bs =>
        exfalso
        apply hmem
        have hb : b = k := h b (by simp)
        have ha : a = k := h a (by simp)
        rw [ha, ← hb]
        simp

theorem nunique_group_key_le_one (d : Table) (k : Cell) :
    nunique (groupCells d k "PcrKey") ≤ 1 := by
  unfold nunique groupCells
  apply dedup_length_le_one
  intro x hx
  have hx' : x ∈ applyMask ((getCells d "PcrKey").map (fun v => v == k))
      (getCells d "PcrKey") := List.mem_of_mem_filter hx
  exact mem_applyMask_self_eq k _ x hx'

/-- C10: when the table lacks an Age_Number column, the Hypothesis-2 age
column falls back to PcrKey itself; since every row of a duplicate group
shares its key, that comparison is vacuously false, so whenever every
duplicate group is Gender-homogeneous (rows differing only in age or other
fields), the multi-subject case count reported is 0. -/
theorem c10_age_number_fallback (df : Table)
    (h : hasCol df "Age_Number" = false) :
    age_col (dup_df df) = "PcrKey"
      ∧ ((∀ k ∈ groupKeys (dup_df df),
            nunique (groupCells (dup_df df) k "Gender") ≤ 1) →
          is_multi df = 0) := by
  have hA : hasCol (dup_df df) "Age_Number" = false := by
    unfold dup_df
    rw [hasCol_maskTable]
    exact h
  have hage : age_col (dup_df df) = "PcrKey" := by
    unfold age_col
    rw [hA]
    simp
  refine ⟨hage, fun hg => ?_⟩
  unfold is_multi
  rw [List.countP_eq_zero]
  intro k hk
  rw [hage]
  simp only [Bool.or_eq_true, decide_eq_true_eq, not_or]
  exact ⟨Nat.not_lt.mpr (hg k hk),
    Nat.not_lt.mpr (nunique_group_key_le_one (dup_df df) k)⟩

/-- Witness for C10 at a concrete table whose duplicate group (PcrKey "1")
has identical Gender on both rows and no Age_Number column. -/
theorem c10_age_number_fallback_witness :
    age_col (dup_df
        [⟨"PcrKey", Dtype.object, [Cell.str "1", Cell.str "1", Cell.str "2"]⟩,
         ⟨"Gender", Dtype.object, [Cell.str "m", Cell.str "m", Cell.str "f"]⟩,
         ⟨"Race", Dtype.object, [Cell.str "w", Cell.str "b", Cell.str "w"]⟩])
      = "PcrKey"
      ∧ is_multi
        [⟨"PcrKey", Dtype.object, [Cell.str "1", Cell.str "1", Cell.str "2"]⟩,
         ⟨"Gender", Dtype.object, [Cell.str "m", Cell.str "m", Cell.str "f"]⟩,
         ⟨"Race", Dtype.object, [Cell.str "w", Cell.str "b", Cell.str "w"]⟩]
        = 0 :=
  ⟨(c10_age_number_fallback
      [⟨"PcrKey", Dtype.object, [Cell.str "1", Cell.str "1", Cell.str "2"]⟩,
       ⟨"Gender", Dtype.object, [Cell.str "m", Cell.str "m", Cell.str "f"]⟩,
       ⟨"Race", Dtype.object, [Cell.str "w", Cell.str "b", Cell.str "w"]⟩]
      (by decide)).1,
   (c10_age_number_fallback
      [⟨"PcrKey", Dtype.object, [Cell.str "1", Cell.str "1", Cell.str "2"]⟩,
       ⟨"Gender", Dtype.object, [Cell.str "m", Cell.str "m", Cell.str "f"]⟩,
       ⟨"Race", Dtype.object, [Cell.str "w", Cell.str "b", Cell.str "w"]⟩]
      (by decide)).2 (by decide)⟩
